import Mathlib

/-!
Verification of the pagination / normalization / batching core of
`spotify_etl_extract.py` (a one-shot Spotify ETL extractor).

Python values flowing through the script are JSON-shaped; we embed them as
the inductive `JVal` below.  A Python expression that may raise is embedded
as an `Option` value (`none` = an exception was raised); the script's
task-level `try/except` blocks then turn `none` into "no snapshot written".

The file is organized as: all definitions (shallow embedding of the
script), then the lemmas and claim theorems.
-/

/-- A JSON-shaped Python value: `None`, booleans, numbers, strings,
lists and dicts (association lists keyed by strings, keys unique). -/
inductive JVal where
  | null : JVal
  | bool (b : Bool) : JVal
  | num (n : Int) : JVal
  | str (s : String) : JVal
  | arr (xs : List JVal) : JVal
  | obj (fields : List (String × JVal)) : JVal

/-- Python truthiness (`if v:`): `None`, `False`, `0`, `""`, `[]`, `{}`
are falsy, everything else truthy. -/
def truthy : JVal → Bool
  | .null => false
  | .bool b => b
  | .num n => n != 0
  | .str s => !s.isEmpty
  | .arr xs => !xs.isEmpty
  | .obj fs => !fs.isEmpty

/-- The value is Python's `None`. -/
def isNull : JVal → Bool
  | .null => true
  | _ => false

/-- Python subscript `d[k]`: `none` models the KeyError raised when the key
is absent, and the TypeError raised when `d` is not a dict. -/
def getItem : JVal → String → Option JVal
  | .obj fs, k => fs.lookup k
  | _, _ => none

/-- Python `d.get(k, dflt)` (and `d.get(k)` with `dflt = JVal.null`):
returns the default when the key is absent; `none` models the
AttributeError raised when `d` is not a dict. -/
def getDefault : JVal → String → JVal → Option JVal
  | .obj fs, k, dflt => some ((fs.lookup k).getD dflt)
  | _, _, _ => none

/-- Iterating a Python value in a `for` loop / comprehension.  The script
only ever iterates JSON arrays; a non-array here is treated as the raised
TypeError. -/
def asList : JVal → Option (List JVal)
  | .arr xs => some xs
  | _ => none

/-- A list comprehension `[f x for x in xs]` whose body may raise:
the first raising element aborts the whole comprehension. -/
def mapOpt (f : JVal → Option JVal) : List JVal → Option (List JVal)
  | [] => some []
  | a :: as =>
    match f a with
    | none => none
    | some b => (mapOpt f as).map (b :: ·)

/-! ## PaginatedFetcher: `get_all_paginated_items` (lines 42-49)

```python
def get_all_paginated_items(spotify_func, *args, **kwargs):
    results = spotify_func(*args, **kwargs)
    all_items = results['items']
    while results['next']:
        results = sp.next(results) # Fetches the next page
        all_items.extend(results['items'])
    return all_items
```

A results object is a `Page`: its `items` and an optional `next` cursor.
`sp.next` is embedded as a function from cursors to pages.  The `while`
loop is embedded with explicit fuel (`none` = the loop did not finish
within the given fuel); we also count the number of `sp.next`
(page-advance) calls performed. -/

/-- One page of a paginated listing: its items and the optional `next`
cursor (a cursor is an opaque token; we index pages by `Nat`). -/
structure Page (α : Type) where
  items : List α
  next : Option Nat

/-- The `while results['next']:` loop of `get_all_paginated_items`.
`acc` is `all_items`, `calls` counts `sp.next` invocations so far. -/
def fetchLoop {α : Type} (spNext : Nat → Page α) :
    Nat → Page α → List α → Nat → Option (List α × Nat)
  | _, ⟨_, none⟩, acc, calls => some (acc, calls)
  | 0, ⟨_, some _⟩, _, _ => none
  | fuel + 1, ⟨_, some c⟩, acc, calls =>
      fetchLoop spNext fuel (spNext c) (acc ++ (spNext c).items) (calls + 1)

/-- The function `get_all_paginated_items`, given the first page (the
result of the initial `spotify_func(*args, **kwargs)` call) and the
page-advance function `sp.next`.  Returns the accumulated items together
with the number of page-advance calls made, or `none` if the loop exceeds
`fuel` iterations. -/
def get_all_paginated_items {α : Type} (spNext : Nat → Page α) (fuel : Nat)
    (first : Page α) : Option (List α × Nat) :=
  fetchLoop spNext fuel first first.items 0

/-- A well-formed finite chain of pages built from a list of per-page item
lists: page `i` holds `ps[i]` and its `next` cursor is `i + 1` exactly
when a further page exists (`next = null` on the last page). -/
def chainPage {α : Type} (ps : List (List α)) (i : Nat) : Page α :=
  { items := ps.getD i []
    next := if i + 1 < ps.length then some (i + 1) else none }

/-! ## BatchChunker: the audio-features batching (lines 153-155)

```python
for i in range(0, len(track_ids_for_features), 100):
    batch_ids = track_ids_for_features[i:i + 100]
```

`batch_slices m ids` is this slicing, generalized from the hardcoded
`100` to a step `m`: Python's `range(0, L, m)` enumerates the
`(L + m - 1) / m` offsets `0, m, 2m, …` (for `m ≥ 1`; Python rejects a
zero step), and the slice `ids[i:i+m]` is `(ids.drop i).take m`. -/

def batch_slices {α : Type} (m : Nat) (ids : List α) : List (List α) :=
  (List.range' 0 ((ids.length + m - 1) / m) m).map (fun i => (ids.drop i).take m)

/-- The same chunking, phrased as recursion (take the first `m` elements,
advance by `m`); used to reason about `batch_slices` by induction.  For
`m ≥ 1`, `as.drop (m - 1)` is `(a :: as).drop m`, the unconsumed rest. -/
def chunkRec {α : Type} (m : Nat) : List α → List (List α)
  | [] => []
  | a :: as => ((a :: as).take m) :: chunkRec m (as.drop (m - 1))
termination_by l => l.length
decreasing_by simp [List.length_drop]; omega

/-! ## RecordNormalizer: the four per-task normalization loops -/

/-- The flat saved-track record built on lines 61-74. -/
structure SavedTrackRecord where
  added_at : JVal
  track_id : JVal
  track_name : JVal
  artist_ids : JVal
  artist_names : JVal
  album_id : JVal
  album_name : JVal
  duration_ms : JVal
  popularity : JVal
  external_url : JVal
  preview_url : JVal
  is_local : JVal

/-- Lines 60-74: `track = item['track']` followed by the record literal.
Every access is a plain subscript (`[...]`), so any absent key raises
(`none`); there is no defaulting in this variant. -/
def buildSavedTrack (item : JVal) : Option SavedTrackRecord := do
  let track ← getItem item "track"
  let added_at ← getItem item "added_at"
  let track_id ← getItem track "id"
  let track_name ← getItem track "name"
  let artists ← getItem track "artists"
  let alist ← asList artists
  let artist_ids ← mapOpt (fun a => getItem a "id") alist
  let artist_names ← mapOpt (fun a => getItem a "name") alist
  let album ← getItem track "album"
  let album_id ← getItem album "id"
  let album_name ← getItem album "name"
  let duration_ms ← getItem track "duration_ms"
  let popularity ← getItem track "popularity"
  let eurls ← getItem track "external_urls"
  let external_url ← getItem eurls "spotify"
  let preview_url ← getItem track "preview_url"
  let is_local ← getItem track "is_local"
  some { added_at, track_id, track_name, artist_ids := .arr artist_ids,
         artist_names := .arr artist_names, album_id, album_name,
         duration_ms, popularity, external_url, preview_url, is_local }

/-- The flat playlist record built on lines 86-97. -/
structure PlaylistRecord where
  playlist_id : JVal
  playlist_name : JVal
  owner_id : JVal
  owner_name : JVal
  description : JVal
  public : JVal
  collaborative : JVal
  track_count : JVal
  snapshot_id : JVal
  external_url : JVal

/-- Lines 86-97: the playlist record literal; all plain subscripts. -/
def buildPlaylist (playlist : JVal) : Option PlaylistRecord := do
  let playlist_id ← getItem playlist "id"
  let playlist_name ← getItem playlist "name"
  let owner ← getItem playlist "owner"
  let owner_id ← getItem owner "id"
  let owner_name ← getItem owner "display_name"
  let description ← getItem playlist "description"
  let pub ← getItem playlist "public"
  let collaborative ← getItem playlist "collaborative"
  let tracksObj ← getItem playlist "tracks"
  let track_count ← getItem tracksObj "total"
  let snapshot_id ← getItem playlist "snapshot_id"
  let eurls ← getItem playlist "external_urls"
  let external_url ← getItem eurls "spotify"
  some { playlist_id, playlist_name, owner_id, owner_name, description,
         public := pub, collaborative, track_count, snapshot_id,
         external_url }

/-- The flat playlist-track record built on lines 123-138. -/
structure PlaylistTrackRecord where
  playlist_id : JVal
  added_at : JVal
  added_by_id : JVal
  track_id : JVal
  track_name : JVal
  artist_ids : JVal
  artist_names : JVal
  album_id : JVal
  album_name : JVal
  duration_ms : JVal
  popularity : JVal
  external_url : JVal
  preview_url : JVal
  is_local : JVal

/-- Lines 123-138: the playlist-track record literal, reached only for a
truthy entry with a truthy `track`.  Nested track fields use defensive
`.get(...)` lookups with explicit defaults; `added_at` is still a plain
subscript, and `added_by` / the artist elements are subscripted after a
truthiness / iteration guard. -/
def buildPlaylistTrack (plid : JVal) (item track : JVal) :
    Option PlaylistTrackRecord := do
  let added_at ← getItem item "added_at"
  let addedBy ← getDefault item "added_by" .null
  let added_by_id ← if truthy addedBy then getItem addedBy "id"
                    else some JVal.null
  let track_id ← getDefault track "id" .null
  let track_name ← getDefault track "name" .null
  let artistsV ← getDefault track "artists" (.arr [])
  let alist ← asList artistsV
  let artist_ids ← mapOpt (fun a => getItem a "id") alist
  let artist_names ← mapOpt (fun a => getItem a "name") alist
  let album ← getDefault track "album" (.obj [])
  let album_id ← getDefault album "id" .null
  let album_name ← getDefault album "name" .null
  let duration_ms ← getDefault track "duration_ms" .null
  let popularity ← getDefault track "popularity" .null
  let eurls ← getDefault track "external_urls" (.obj [])
  let external_url ← getDefault eurls "spotify" .null
  let preview_url ← getDefault track "preview_url" .null
  let is_local ← getDefault track "is_local" (.bool false)
  some { playlist_id := plid, added_at, added_by_id, track_id, track_name,
         artist_ids := .arr artist_ids, artist_names := .arr artist_names,
         album_id, album_name, duration_ms, popularity, external_url,
         preview_url, is_local }

/-- The flat recently-played record built on lines 178-188. -/
structure RecentRecord where
  played_at : JVal
  track_id : JVal
  track_name : JVal
  artist_ids : JVal
  artist_names : JVal
  album_id : JVal
  album_name : JVal
  context_type : JVal
  context_uri : JVal

/-- Lines 177-188: `track = item['track']` then the record literal; plain
subscripts for the track fields, and a `context` that defaults both
sub-fields to `None` when `item.get('context')` is falsy. -/
def buildRecent (item : JVal) : Option RecentRecord := do
  let track ← getItem item "track"
  let played_at ← getItem item "played_at"
  let track_id ← getItem track "id"
  let track_name ← getItem track "name"
  let artists ← getItem track "artists"
  let alist ← asList artists
  let artist_ids ← mapOpt (fun a => getItem a "id") alist
  let artist_names ← mapOpt (fun a => getItem a "name") alist
  let album ← getItem track "album"
  let album_id ← getItem album "id"
  let album_name ← getItem album "name"
  let ctx ← getDefault item "context" .null
  let context_type ← if truthy ctx then getItem ctx "type"
                     else some JVal.null
  let context_uri ← if truthy ctx then getItem ctx "uri"
                    else some JVal.null
  some { played_at, track_id, track_name, artist_ids := .arr artist_ids,
         artist_names := .arr artist_names, album_id, album_name,
         context_type, context_uri }

/-- The per-task `for item in ...: processed.append({...})` loop.  Returns
the records appended before any exception, together with a flag saying
whether the loop finished without raising.  `false` means an exception
escaped to the task's `except` handler: no snapshot is written, but the
Python list variable keeps the partial records. -/
def processLoop {R : Type} (build : JVal → Option R) :
    List JVal → List R × Bool
  | [] => ([], true)
  | item :: rest =>
    match build item with
    | none => ([], false)
    | some r =>
      let p := processLoop build rest
      (r :: p.1, p.2)

/-- Lines 58-74: the saved-tracks normalization loop. -/
def processed_tracks (items : List JVal) : List SavedTrackRecord × Bool :=
  processLoop buildSavedTrack items

/-- Lines 84-97: the playlists normalization loop. -/
def processed_playlists (items : List JVal) : List PlaylistRecord × Bool :=
  processLoop buildPlaylist items

/-- Lines 175-188: the recently-played normalization loop. -/
def processed_recent (items : List JVal) : List RecentRecord × Bool :=
  processLoop buildRecent items

/-- Lines 117-138: the playlist-track loop with its skip
(`if not item or not item['track']: continue`).  Short-circuit: a falsy
entry is skipped without touching `item['track']`; a truthy entry without
a `track` key raises KeyError out of the loop. -/
def processed_playlist_tracks (plid : JVal) :
    List JVal → List PlaylistTrackRecord × Bool
  | [] => ([], true)
  | item :: rest =>
    if !truthy item then processed_playlist_tracks plid rest
    else
      match getItem item "track" with
      | none => ([], false)
      | some track =>
        if !truthy track then processed_playlist_tracks plid rest
        else
          match buildPlaylistTrack plid item track with
          | none => ([], false)
          | some r =>
            let p := processed_playlist_tracks plid rest
            (r :: p.1, p.2)

/-- Line 148: `[track['track_id'] for track in processed_tracks if
track['track_id'] and not track['is_local']]` — keep the ids whose value
is truthy and whose `is_local` value is not truthy. -/
def track_ids_for_features (recs : List SavedTrackRecord) : List JVal :=
  recs.filterMap (fun r =>
    if truthy r.track_id && !truthy r.is_local then some r.track_id
    else none)

/-- Lines 152-158 given the sequence of per-batch lookup responses (one
`sp.audio_features` call per batch): each response is filtered by Python
truthiness (`[f for f in batch_features if f]`) and the filtered batches
are concatenated in batch order by `all_audio_features.extend(...)`. -/
def all_audio_features (responses : List (List JVal)) : List JVal :=
  (responses.map (fun bf => bf.filter truthy)).flatten

/-- The audio-features batch loop of lines 154-158 with a fallible
per-batch lookup: a failing `sp.audio_features` call raises out of the
loop (caught by the task's `except`, so nothing is saved). -/
def audioBatchLoop (lookup : List JVal → Except Unit (List JVal)) :
    List (List JVal) → Option (List JVal)
  | [] => some []
  | b :: bs =>
    match lookup b with
    | .error _ => none
    | .ok fs => (audioBatchLoop lookup bs).map (fs.filter truthy ++ ·)

/-! ## The driver (module top level, lines 51-197)

The five API interactions are abstracted as oracles: each task's fetch
either yields the raw item payload or raises (`Except.error`).  Per task
the script binds `processed_*` and calls `save_data` inside a `try`
block; `RunResult` records which snapshots were saved and whether the
final line 196 (`--- Extraction Complete ---`) was reached. -/

/-- Outcome of one run of the script after successful authentication:
which snapshot files were written, and whether the terminal completion
message was reached (as opposed to an uncaught exception). -/
structure RunResult where
  savedSnapshot : Option (List SavedTrackRecord)
  playlistsSnapshot : Option (List PlaylistRecord)
  playlistTracksSnapshot : Option (List PlaylistTrackRecord)
  audioSnapshot : Option (List JVal)
  recentSnapshot : Option (List RecentRecord)
  completed : Bool

/-- The script's top level, lines 51-197.  The first component of `t1` /
`t2` embeds Python name binding: `none` means the `processed_*` variable
was never assigned because the task's fetch raised first (lines 56, 83);
its value, when bound, is the (possibly partial) normalized list. -/
def runExtract (fetchSaved : Except Unit (List JVal))
    (fetchPlaylists : Except Unit (List JVal))
    (fetchPlaylistItems : JVal → Except Unit (List JVal))
    (audioLookup : List JVal → Except Unit (List JVal))
    (fetchRecent : Except Unit JVal) : RunResult :=
  -- Task 1 (lines 54-78): saved tracks.
  let t1 : Option (List SavedTrackRecord) × Option (List SavedTrackRecord) :=
    match fetchSaved with
    | .error _ => (none, none)
    | .ok items =>
      let p := processed_tracks items
      (some p.1, if p.2 then some p.1 else none)
  -- Task 2 (lines 81-101): playlists.
  let t2 : Option (List PlaylistRecord) × Option (List PlaylistRecord) :=
    match fetchPlaylists with
    | .error _ => (none, none)
    | .ok items =>
      let p := processed_playlists items
      (some p.1, if p.2 then some p.1 else none)
  -- Line 105: `if processed_playlists:`.  If task 2's fetch raised, the
  -- name was never bound and this top-level test raises an uncaught
  -- NameError, aborting the script (no further task runs).
  match t2.1 with
  | none =>
    { savedSnapshot := t1.2, playlistsSnapshot := t2.2,
      playlistTracksSnapshot := none, audioSnapshot := none,
      recentSnapshot := none, completed := false }
  | some pls =>
    -- Task 3 (lines 105-143): first playlist's tracks, run only when the
    -- playlist list is truthy (non-empty).
    let ptSnap : Option (List PlaylistTrackRecord) :=
      match pls with
      | [] => none
      | p0 :: _ =>
        match fetchPlaylistItems p0.playlist_id with
        | .error _ => none
        | .ok items =>
          let q := processed_playlist_tracks p0.playlist_id items
          if q.2 then some q.1 else none
    -- Line 148, top level: raises an uncaught NameError when task 1's
    -- fetch raised and `processed_tracks` was never bound.
    match t1.1 with
    | none =>
      { savedSnapshot := t1.2, playlistsSnapshot := t2.2,
        playlistTracksSnapshot := ptSnap, audioSnapshot := none,
        recentSnapshot := none, completed := false }
    | some recs =>
      let ids := track_ids_for_features recs
      -- Task 4 (lines 149-164): audio features, run only when the id
      -- list is truthy (non-empty).
      let audioSnap : Option (List JVal) :=
        if ids.isEmpty then none
        else audioBatchLoop audioLookup (batch_slices 100 ids)
      -- Task 5 (lines 167-193): recently played.
      let recentSnap : Option (List RecentRecord) :=
        match fetchRecent with
        | .error _ => none
        | .ok resp =>
          match getDefault resp "items" (.arr []) with
          | none => none
          | some itemsV =>
            match asList itemsV with
            | none => none
            | some items =>
              let p := processed_recent items
              if p.2 then some p.1 else none
      { savedSnapshot := t1.2, playlistsSnapshot := t2.2,
        playlistTracksSnapshot := ptSnap, audioSnapshot := audioSnap,
        recentSnapshot := recentSnap, completed := true }

/-! ## Shape predicates and claim-side (spec-worded) definitions -/

/-- The association list has the key. -/
def hasKey (fs : List (String × JVal)) (k : String) : Bool :=
  (fs.lookup k).isSome

/-- A well-shaped artist list: a JSON array of objects that each carry
`id` and `name`. -/
def wellShapedArtists : JVal → Bool
  | .arr l => l.all (fun a =>
      match a with
      | .obj afs => hasKey afs "id" && hasKey afs "name"
      | _ => false)
  | _ => false

/-- The playlist-track entry shapes tolerated by the normalizer: the entry
is a dict with an `added_at` key and a `track` key holding a dict; the
*optional* nested keys (`added_by`, `artists`, `album`, `external_urls`)
may each be absent, and are well-typed when present.  Nothing is assumed
about `id`, `name`, `duration_ms`, `popularity`, `preview_url`,
`is_local`: those may be absent or arbitrary. -/
def wellShapedPTItem : JVal → Bool
  | .obj ifs =>
    hasKey ifs "added_at" &&
    (match ifs.lookup "added_by" with
     | none => true
     | some ab => !truthy ab ||
        (match ab with
         | .obj afs => hasKey afs "id"
         | _ => false)) &&
    (match ifs.lookup "track" with
     | some (.obj tf) =>
       (match tf.lookup "artists" with
        | none => true
        | some a => wellShapedArtists a) &&
       (match tf.lookup "album" with
        | none => true
        | some (.obj _) => true
        | some _ => false) &&
       (match tf.lookup "external_urls" with
        | none => true
        | some (.obj _) => true
        | some _ => false)
     | _ => false)
  | _ => false

/-- An audio-features response entry as the upstream API produces it:
either `null` or a truthy value (a non-empty features object). -/
def nullOrTruthy (v : JVal) : Bool :=
  isNull v || truthy v

/-- A saved-track record whose id fields are well-typed: `track_id` is
null or a non-empty string, `is_local` is a boolean. -/
def wellTypedIdFields (r : SavedTrackRecord) : Bool :=
  (match r.track_id with
   | .null => true
   | .str s => !s.isEmpty
   | _ => false) &&
  (match r.is_local with
   | .bool _ => true
   | _ => false)

/-- The value is the boolean `False`. -/
def isFalseBool : JVal → Bool
  | .bool b => !b
  | _ => false

/-- Claim C9's filter, worded as in the spec: keep each record's
`track_id` when it is non-null and the `is_local` flag is false. -/
def specAudioIds (recs : List SavedTrackRecord) : List JVal :=
  recs.filterMap (fun r =>
    if !isNull r.track_id && isFalseBool r.is_local then some r.track_id
    else none)

/-- Claim C8's filtering, worded as in the spec: drop exactly the null
entries of each batch response and concatenate in batch order. -/
def spec_audio_features (responses : List (List JVal)) : List JVal :=
  (responses.map (fun bf => bf.filter (fun f => !isNull f))).flatten

/-- A concrete saved-track record (non-null id, not local), used in
witness checks. -/
def sampleRecNormal : SavedTrackRecord :=
  ⟨.null, .str "idA", .null, .arr [], .arr [], .null, .null, .null, .null,
   .null, .null, .bool false⟩

/-- A concrete saved-track record with a null id, used in witness checks. -/
def sampleRecNoId : SavedTrackRecord :=
  ⟨.null, .null, .null, .arr [], .arr [], .null, .null, .null, .null,
   .null, .null, .bool false⟩

/-- A concrete saved-track record marked local, used in witness checks. -/
def sampleRecLocal : SavedTrackRecord :=
  ⟨.null, .str "idC", .null, .arr [], .arr [], .null, .null, .null, .null,
   .null, .null, .bool true⟩

/-! ## Lemmas and claim theorems -/

lemma fetchLoop_chain {α : Type} (ps : List (List α)) :
    ∀ fuel i acc calls, i < ps.length → ps.length - 1 - i ≤ fuel →
    fetchLoop (chainPage ps) fuel (chainPage ps i) acc calls
      = some (acc ++ (ps.drop (i + 1)).flatten, calls + (ps.length - 1 - i)) := by
  intro fuel
  induction fuel with
  | zero =>
    intro i acc calls hi hfuel
    have hnext : ¬ (i + 1 < ps.length) := by omega
    have hd : ps.drop (i + 1) = [] := List.drop_eq_nil_of_le (by omega)
    have hcp : chainPage ps i = ⟨ps.getD i [], none⟩ := by simp [chainPage, hnext]
    rw [hcp]
    have hz : ps.length - 1 - i = 0 := by omega
    simp [fetchLoop, hd, hz]
  | succ fuel ih =>
    intro i acc calls hi hfuel
    by_cases hnext : i + 1 < ps.length
    · have hcp : chainPage ps i = ⟨ps.getD i [], some (i + 1)⟩ := by
        simp [chainPage, hnext]
      rw [hcp]
      show fetchLoop (chainPage ps) fuel (chainPage ps (i + 1))
          (acc ++ (chainPage ps (i + 1)).items) (calls + 1) = _
      rw [ih (i + 1) _ _ hnext (by omega)]
      have hget : ps.getD (i + 1) [] = ps[i + 1] := by
        simp [List.getD, List.getElem?_eq_getElem hnext]
      have hd : ps.drop (i + 1) = ps[i + 1] :: ps.drop (i + 2) :=
        List.drop_eq_getElem_cons hnext
      rw [hd]
      simp only [chainPage, hget, List.flatten_cons, List.append_assoc]
      have : calls + 1 + (ps.length - 1 - (i + 1)) = calls + (ps.length - 1 - i) := by
        omega
      rw [this]
    · have hd : ps.drop (i + 1) = [] := List.drop_eq_nil_of_le (by omega)
      have hcp : chainPage ps i = ⟨ps.getD i [], none⟩ := by simp [chainPage, hnext]
      rw [hcp]
      have hz : ps.length - 1 - i = 0 := by omega
      simp [fetchLoop, hd, hz]

/-- C1: for every finite chain of N pages linked by `next` and ending in a
page with null `next`, `get_all_paginated_items` returns the concatenation
of all pages' items in API order (no re-sorting, no deduplication), with
length equal to the sum of the page lengths. -/
theorem pagination_completeness {α : Type} (ps : List (List α)) (fuel : Nat)
    (hne : ps ≠ []) (hfuel : ps.length - 1 ≤ fuel) :
    get_all_paginated_items (chainPage ps) fuel (chainPage ps 0)
        = some (ps.flatten, ps.length - 1) ∧
      ps.flatten.length = (ps.map List.length).sum := by
  constructor
  · unfold get_all_paginated_items
    rw [fetchLoop_chain ps fuel 0 (chainPage ps 0).items 0
        (List.length_pos.mpr hne) (by omega)]
    cases ps with
    | nil => exact absurd rfl hne
    | cons a t => simp [chainPage]
  · exact List.length_flatten ps

/-- Witness for C1 at a concrete 3-page chain. -/
theorem pagination_completeness_witness :
    get_all_paginated_items (chainPage [[10, 20], [30], [40, 50]]) 2
        (chainPage [[10, 20], [30], [40, 50]] 0)
        = some ([10, 20, 30, 40, 50], 2) ∧
      ([[10, 20], [30], [40, 50]] : List (List Nat)).flatten.length
        = (([[10, 20], [30], [40, 50]] : List (List Nat)).map List.length).sum := by
  have h := pagination_completeness [[10, 20], [30], [40, 50]] 2 (by simp) (by simp)
  exact ⟨h.1, h.2⟩

/-- C2: the fetch loop terminates exactly when a page with null `next` is
reached: on a finite chain of N pages it returns after exactly N - 1
page-advance calls, and on a single page with `next = null` it returns
exactly that page's items with zero advance calls (for any advance
function and any fuel). -/
theorem pagination_termination {α : Type} :
    (∀ (ps : List (List α)) (fuel : Nat), ps ≠ [] → ps.length - 1 ≤ fuel →
      ∃ items, get_all_paginated_items (chainPage ps) fuel (chainPage ps 0)
          = some (items, ps.length - 1)) ∧
    (∀ (spNext : Nat → Page α) (fuel : Nat) (items : List α),
      get_all_paginated_items spNext fuel ⟨items, none⟩ = some (items, 0)) := by
  constructor
  · intro ps fuel hne hfuel
    exact ⟨ps.flatten, (pagination_completeness ps fuel hne hfuel).1⟩
  · intro spNext fuel items
    cases fuel <;> rfl

/-- Witness for C2: a 2-page chain needs exactly one advance call, and a
single final page needs zero. -/
theorem pagination_termination_witness :
    (∃ items, get_all_paginated_items (chainPage [[1], [2, 3]]) 1
        (chainPage [[1], [2, 3]] 0) = some (items, 1)) ∧
    get_all_paginated_items (fun _ => ⟨([] : List Nat), none⟩) 7 ⟨[9], none⟩
        = some ([9], 0) :=
  ⟨(pagination_termination (α := Nat)).1 [[1], [2, 3]] 1 (by simp) (by simp),
   (pagination_termination (α := Nat)).2 _ 7 [9]⟩

lemma chunkRec_nil {α : Type} (m : Nat) : chunkRec m ([] : List α) = [] := by
  simp [chunkRec]

lemma chunkRec_cons {α : Type} (m : Nat) (a : α) (as : List α) :
    chunkRec m (a :: as) = ((a :: as).take m) :: chunkRec m (as.drop (m - 1)) := by
  rw [chunkRec]

lemma drop_pred_cons {α : Type} (m : Nat) (hm : 0 < m) (a : α) (as : List α) :
    as.drop (m - 1) = (a :: as).drop m := by
  cases m with
  | zero => omega
  | succ k => simp [List.drop_succ_cons]

lemma slices_shift {α : Type} (m : Nat) :
    ∀ (k s : Nat) (ids : List α),
      (List.range' s k m).map (fun i => (ids.drop i).take m)
        = (List.range' 0 k m).map (fun i => ((ids.drop s).drop i).take m) := by
  intro k
  induction k with
  | zero => intro s ids; simp [List.range'_zero]
  | succ k ih =>
    intro s ids
    rw [List.range'_succ, List.range'_succ]
    simp only [List.map_cons, List.drop_zero, Nat.zero_add]
    congr 1
    rw [ih (s + m) ids, ih m (ids.drop s)]
    simp [List.drop_drop, Nat.add_comm]

lemma batch_slices_nil {α : Type} (m : Nat) (hm : 0 < m) :
    batch_slices m ([] : List α) = [] := by
  unfold batch_slices
  simp [Nat.div_eq_of_lt (show m - 1 < m by omega)]

lemma batch_count_cons (m L : Nat) (hm : 0 < m) (hL : 0 < L) :
    (L + m - 1) / m = (L - m + m - 1) / m + 1 := by
  rcases le_or_lt m L with h | h
  · have he : L + m - 1 = (L - m + m - 1) + m := by omega
    rw [he, Nat.add_div_right _ hm]
  · have h1 : (L + m - 1) / m = 1 := by
      apply Nat.div_eq_of_lt_le <;> omega
    have h0 : L - m = 0 := by omega
    rw [h1, h0, Nat.zero_add, Nat.div_eq_of_lt (by omega)]

lemma batch_slices_cons {α : Type} (m : Nat) (hm : 0 < m) (a : α) (as : List α) :
    batch_slices m (a :: as)
      = ((a :: as).take m) :: batch_slices m ((a :: as).drop m) := by
  unfold batch_slices
  have hlen : (a :: as).length = as.length + 1 := rfl
  have hdlen : ((a :: as).drop m).length = as.length + 1 - m := by
    simp [List.length_drop]
  rw [hlen, hdlen, batch_count_cons m (as.length + 1) hm (by omega),
    List.range'_succ]
  simp only [List.map_cons, List.drop_zero, Nat.zero_add]
  congr 1
  exact slices_shift m _ m (a :: as)

lemma batch_slices_eq_chunkRec {α : Type} (m : Nat) (hm : 0 < m) :
    ∀ (n : Nat) (ids : List α), ids.length ≤ n →
      batch_slices m ids = chunkRec m ids := by
  intro n
  induction n with
  | zero =>
    intro ids hlen
    have : ids = [] := List.eq_nil_of_length_eq_zero (by omega)
    subst this
    rw [batch_slices_nil m hm, chunkRec_nil]
  | succ n ih =>
    intro ids hlen
    match ids with
    | [] => rw [batch_slices_nil m hm, chunkRec_nil]
    | a :: as =>
      rw [batch_slices_cons m hm a as, chunkRec_cons, drop_pred_cons m hm a as]
      congr 1
      apply ih
      simp only [List.length_drop, List.length_cons]
      simp only [List.length_cons] at hlen
      omega

lemma chunkRec_flatten {α : Type} (m : Nat) (hm : 0 < m) :
    ∀ (n : Nat) (ids : List α), ids.length ≤ n →
      (chunkRec m ids).flatten = ids := by
  intro n
  induction n with
  | zero =>
    intro ids hlen
    have : ids = [] := List.eq_nil_of_length_eq_zero (by omega)
    subst this
    simp [chunkRec_nil]
  | succ n ih =>
    intro ids hlen
    match ids with
    | [] => simp [chunkRec_nil]
    | a :: as =>
      rw [chunkRec_cons, List.flatten_cons, drop_pred_cons m hm a as]
      rw [ih ((a :: as).drop m) (by simp at hlen ⊢; omega)]
      exact List.take_append_drop m (a :: as)

lemma chunkRec_size_le {α : Type} (m : Nat) :
    ∀ (n : Nat) (ids : List α), ids.length ≤ n →
      ∀ c ∈ chunkRec m ids, c.length ≤ m := by
  intro n
  induction n with
  | zero =>
    intro ids hlen
    have : ids = [] := List.eq_nil_of_length_eq_zero (by omega)
    subst this
    simp [chunkRec_nil]
  | succ n ih =>
    intro ids hlen c hc
    match ids with
    | [] => simp [chunkRec_nil] at hc
    | a :: as =>
      rw [chunkRec_cons] at hc
      rcases List.mem_cons.mp hc with h | h
      · subst h
        simp [List.length_take]
      · exact ih (as.drop (m - 1)) (by simp at hlen ⊢; omega) c h

lemma chunkRec_ne_nil_of_ne_nil {α : Type} (m : Nat) (ids : List α)
    (h : chunkRec m ids ≠ []) : ids ≠ [] := by
  intro he
  subst he
  exact h (chunkRec_nil m)

lemma chunkRec_dropLast_size {α : Type} (m : Nat) (hm : 0 < m) :
    ∀ (n : Nat) (ids : List α), ids.length ≤ n →
      ∀ c ∈ (chunkRec m ids).dropLast, c.length = m := by
  intro n
  induction n with
  | zero =>
    intro ids hlen
    have : ids = [] := List.eq_nil_of_length_eq_zero (by omega)
    subst this
    simp [chunkRec_nil]
  | succ n ih =>
    intro ids hlen c hc
    match ids with
    | [] => simp [chunkRec_nil] at hc
    | a :: as =>
      rw [chunkRec_cons] at hc
      by_cases hrest : chunkRec m (as.drop (m - 1)) = []
      · rw [hrest] at hc
        simp at hc
      · rw [List.dropLast_cons_of_ne_nil hrest] at hc
        rcases List.mem_cons.mp hc with h | h
        · subst h
          have hne := chunkRec_ne_nil_of_ne_nil m _ hrest
          have hlen2 : m - 1 < as.length := by
            by_contra hco
            exact hne (List.drop_eq_nil_of_le (by omega))
          simp [List.length_take]
          omega
        · exact ih (as.drop (m - 1)) (by simp at hlen ⊢; omega) c h

/-- C3: for every identifier sequence of length L and every batch ceiling
M ≥ 1 (the script hardcodes M = 100), the slicing loop produces
⌈L / M⌉ = (L + M - 1) / M contiguous groups, each of size at most M, all
of size exactly M except possibly the last, and concatenating the groups
in order reproduces the input exactly (no reordering, duplication or
loss).  The audio-features task issues one bulk-lookup call per batch and
concatenates results in batch order (`all_audio_features`'s structure). -/
theorem chunking_round_trip {α : Type} (m : Nat) (hm : 1 ≤ m) (ids : List α) :
    (batch_slices m ids).length = (ids.length + m - 1) / m ∧
    (∀ c ∈ batch_slices m ids, c.length ≤ m) ∧
    (∀ c ∈ (batch_slices m ids).dropLast, c.length = m) ∧
    (batch_slices m ids).flatten = ids := by
  have he := batch_slices_eq_chunkRec m hm ids.length ids le_rfl
  refine ⟨?_, ?_, ?_, ?_⟩
  · simp [batch_slices, List.length_range']
  · rw [he]
    exact chunkRec_size_le m ids.length ids le_rfl
  · rw [he]
    exact chunkRec_dropLast_size m hm ids.length ids le_rfl
  · rw [he]
    exact chunkRec_flatten m hm ids.length ids le_rfl

set_option maxRecDepth 4000 in
/-- Witness for C3 at the spec's end-to-end scenario: 120 identifiers
with a batch ceiling of 100 give exactly 2 batches of sizes [100, 20]
(hence two bulk-lookup calls), concatenating back to the input. -/
theorem chunking_round_trip_witness :
    ((batch_slices 100 (List.range 120)).length = (120 + 100 - 1) / 100 ∧
      (∀ c ∈ batch_slices 100 (List.range 120), c.length ≤ 100) ∧
      (∀ c ∈ (batch_slices 100 (List.range 120)).dropLast, c.length = 100) ∧
      (batch_slices 100 (List.range 120)).flatten = List.range 120) ∧
    (batch_slices 100 (List.range 120)).map List.length = [100, 20] ∧
    (batch_slices 100 (List.range 120)).length = 2 := by
  refine ⟨?_, by decide, by decide⟩
  have h := chunking_round_trip 100 (by decide) (List.range 120)
  simpa using h

/-- C4: a falsy playlist-track entry, or an entry whose `track` field is
present and falsy (null among others), is skipped entirely: it
contributes no record, and the remaining entries are processed exactly as
if the skipped entry were absent, in their original order. -/
theorem playlist_track_skip (plid e : JVal) (xs ys : List JVal)
    (h : truthy e = false ∨
      ∃ t, getItem e "track" = some t ∧ truthy t = false) :
    processed_playlist_tracks plid (xs ++ e :: ys)
      = processed_playlist_tracks plid (xs ++ ys) := by
  induction xs with
  | nil =>
    simp only [List.nil_append]
    rcases h with h | ⟨t, ht, htf⟩
    · simp [processed_playlist_tracks, h]
    · by_cases hte : truthy e
      · simp [processed_playlist_tracks, hte, ht, htf]
      · simp [processed_playlist_tracks, hte]
  | cons a as ih =>
    simp only [List.cons_append, processed_playlist_tracks, List.append_eq]
    rw [ih]

/-- Witness for C4: a null entry between two well-formed entries is
dropped, the neighbours are still normalized in order. -/
theorem playlist_track_skip_witness :
    processed_playlist_tracks (.str "p")
        [.obj [("added_at", .str "a1"), ("track", .obj [("name", .str "s1")])],
         .null,
         .obj [("added_at", .str "a2"), ("track", .obj [("name", .str "s2")])]]
      = processed_playlist_tracks (.str "p")
        [.obj [("added_at", .str "a1"), ("track", .obj [("name", .str "s1")])],
         .obj [("added_at", .str "a2"), ("track", .obj [("name", .str "s2")])]] :=
  playlist_track_skip (.str "p") .null
    [.obj [("added_at", .str "a1"), ("track", .obj [("name", .str "s1")])]]
    [.obj [("added_at", .str "a2"), ("track", .obj [("name", .str "s2")])]]
    (Or.inl rfl)

/-- C8: when every entry of every batch response is either null or truthy
(the upstream API returns a features object or null per identifier), the
audio-features loop drops exactly the null entries, passes every non-null
entry through unchanged in its original order, and concatenates the
per-batch filtered results in batch order. -/
theorem audio_null_filtering (responses : List (List JVal))
    (h : ∀ bf ∈ responses, ∀ f ∈ bf, nullOrTruthy f = true) :
    all_audio_features responses = spec_audio_features responses := by
  unfold all_audio_features spec_audio_features
  congr 1
  apply List.map_congr_left
  intro bf hbf
  apply List.filter_congr
  intro f hf
  have hn := h bf hbf f hf
  unfold nullOrTruthy at hn
  cases f <;> simp_all [isNull, truthy]

/-- Witness for C8 at the spec's instance: a batch response
`[F1, null, F3]` contributes exactly `[F1, F3]`. -/
theorem audio_null_filtering_witness :
    (∀ bf ∈ [[JVal.obj [("danceability", JVal.num 1)], JVal.null,
        JVal.obj [("energy", JVal.num 2)]]],
      ∀ f ∈ bf, nullOrTruthy f = true) ∧
    all_audio_features [[JVal.obj [("danceability", JVal.num 1)], JVal.null,
        JVal.obj [("energy", JVal.num 2)]]]
      = spec_audio_features [[JVal.obj [("danceability", JVal.num 1)],
          JVal.null, JVal.obj [("energy", JVal.num 2)]]] ∧
    all_audio_features [[JVal.obj [("danceability", JVal.num 1)], JVal.null,
        JVal.obj [("energy", JVal.num 2)]]]
      = [JVal.obj [("danceability", JVal.num 1)],
         JVal.obj [("energy", JVal.num 2)]] := by
  refine ⟨by decide, audio_null_filtering _ (by decide), rfl⟩

/-- C9: under well-typed id fields (`track_id` null or a non-empty
string, `is_local` boolean — the shapes the API produces), the identifier
sequence submitted to the audio-features lookup is exactly the
subsequence of `track_id` values of the processed saved-track records
whose `track_id` is non-null and whose `is_local` flag is false, in the
original saved-tracks order; local tracks and id-less tracks are never
submitted. -/
theorem audio_ids_selection (recs : List SavedTrackRecord)
    (h : ∀ r ∈ recs, wellTypedIdFields r = true) :
    track_ids_for_features recs = specAudioIds recs := by
  unfold track_ids_for_features specAudioIds
  induction recs with
  | nil => rfl
  | cons r rest ih =>
    have hr : wellTypedIdFields r = true := h r (List.mem_cons_self r rest)
    have hrest := ih (fun x hx => h x (List.mem_cons_of_mem r hx))
    simp only [List.filterMap_cons]
    have hcond : (truthy r.track_id && !truthy r.is_local)
        = (!isNull r.track_id && isFalseBool r.is_local) := by
      unfold wellTypedIdFields at hr
      cases htid : r.track_id <;> cases hloc : r.is_local <;>
        simp_all [truthy, isNull, isFalseBool]
    rw [hcond, hrest]

/-- Witness for C9: three records — a normal one, a null-id one, a local
one — give exactly the normal one\'s id. -/
theorem audio_ids_selection_witness :
    (∀ r ∈ [sampleRecNormal, sampleRecNoId, sampleRecLocal],
      wellTypedIdFields r = true) ∧
    track_ids_for_features [sampleRecNormal, sampleRecNoId, sampleRecLocal]
      = specAudioIds [sampleRecNormal, sampleRecNoId, sampleRecLocal] ∧
    track_ids_for_features [sampleRecNormal, sampleRecNoId, sampleRecLocal]
      = [JVal.str "idA"] := by
  refine ⟨by decide, audio_ids_selection _ (by decide), rfl⟩
